import Mathlib

/-!
# Projectile lifecycle, guidance and collision queries (Projectile.cpp)

A shallow embedding of `Projectile.cpp`.  The classes `Point`, `Angle`, `Effect`,
`Mask`, `Outfit` and `Ship` are declared in headers that Projectile.cpp only
includes, so the operations the projectile code calls on them are collected in a
`Kernel` record and taken as parameters.  `double` is the carrier `Kernel.Dbl`;
every comparison and truth test the code performs on a `double` is a `Bool`
valued operation of the kernel, so nothing is assumed about NaN or rounding.

`lifetime` is a C++ `int`.  It is modelled by an unbounded integer: the only
arithmetic on it is the pre-decrement in `Move`, which C++ leaves undefined at
`INT_MIN`; results about `n` consecutive calls therefore describe the code as
long as the counter has not run past `INT_MIN`.
-/

namespace EndlessSky

/-- Operations of the external classes used by the projectile code. -/
structure Kernel where
  /-- Carrier of `double`. -/
  Dbl : Type
  /-- Carrier of `Point`. -/
  Point : Type
  /-- Carrier of `Angle`. -/
  Angle : Type
  /-- Carrier of `Effect`. -/
  Effect : Type
  /-- Carrier of `Animation`. -/
  Animation : Type
  /-- State of the global random generator read by `Angle::Random`. -/
  Rng : Type
  /-- Literal `0.`. -/
  zero : Dbl
  /-- Literal `1.`. -/
  one : Dbl
  /-- Literal `1.5`. -/
  onePointFive : Dbl
  /-- Literal `180.`. -/
  oneEighty : Dbl
  /-- Constant `M_PI`. -/
  M_PI : Dbl
  /-- Truth value of a `double` used as a condition (`if(x)`, `x ? a : b`). -/
  nonzero : Dbl → Bool
  /-- Comparison `a > b` on `double`. -/
  gt : Dbl → Dbl → Bool
  /-- Comparison `a <= b` on `double`. -/
  le : Dbl → Dbl → Bool
  /-- Conversion `double` to `int`. -/
  toInt : Dbl → Int
  /-- Subtraction `a - b` on `double`. -/
  sub : Dbl → Dbl → Dbl
  /-- Product `a * b` on `double`. -/
  mul : Dbl → Dbl → Dbl
  /-- Quotient `a / b` on `double`. -/
  div : Dbl → Dbl → Dbl
  /-- Library function `fabs`. -/
  fabs : Dbl → Dbl
  /-- Library function `asin`. -/
  asin : Dbl → Dbl
  /-- Library function `copysign(magnitude, sign)`. -/
  copysign : Dbl → Dbl → Dbl
  /-- Sum `p + q` of points. -/
  padd : Point → Point → Point
  /-- Difference `p - q` of points. -/
  psub : Point → Point → Point
  /-- Product `p * s` of a point and a scalar. -/
  mulPD : Point → Dbl → Point
  /-- Product `s * p` of a scalar and a point. -/
  mulDP : Dbl → Point → Point
  /-- Method `Point::Length`. -/
  Length : Point → Dbl
  /-- Method `Point::Dot`. -/
  Dot : Point → Point → Dbl
  /-- Method `Point::Cross`. -/
  Cross : Point → Point → Dbl
  /-- Method `Point::Unit`. -/
  PUnit : Point → Point
  /-- Constructor `Angle(degrees)`. -/
  angleOfDeg : Dbl → Angle
  /-- Sum `a + b` of angles. -/
  angleAdd : Angle → Angle → Angle
  /-- Difference `a - b` of angles. -/
  angleSub : Angle → Angle → Angle
  /-- Method `Angle::Unit`. -/
  Unit : Angle → Point
  /-- Function `Angle::Random(range)`, threading the generator state. -/
  Random : Dbl → Rng → Angle × Rng
  /-- Method `Effect::Place(position, velocity, angle)` on a copy of a template. -/
  Place : Effect → Point → Point → Angle → Effect
  /-- The literal `0.` is false as a condition. -/
  nonzero_zero : nonzero zero = false

variable {K : Kernel}

/-- Collision shape of one animation frame (class `Mask`). -/
structure Mask (K : Kernel) where
  /-- Method `Mask::WithinRange(point, facing, range)`. -/
  WithinRange : K.Point → K.Angle → K.Dbl → Bool
  /-- Method `Mask::Collide(sA, vA, facing)`. -/
  Collide : K.Point → K.Point → K.Angle → K.Dbl

/-- The part of a `Ship` the projectile code reads.  Systems and governments are
pointers compared by identity; a `weak_ptr<const Ship>` is an optional handle. -/
structure Ship (K : Kernel) where
  /-- Accessor `Ship::Position`. -/
  Position : K.Point
  /-- Accessor `Ship::Velocity`. -/
  Velocity : K.Point
  /-- Accessor `Ship::Facing`. -/
  Facing : K.Angle
  /-- Accessor `Ship::GetSystem`. -/
  GetSystem : Nat
  /-- Accessor `Ship::GetGovernment`. -/
  GetGovernment : Nat
  /-- Accessor `Ship::GetTargetShip`. -/
  GetTargetShip : Option Nat
  /-- Composition `GetSprite().GetMask(step)`. -/
  GetMask : Int → Mask K

/-- The ships that exist in one tick: a handle resolves to a ship or to nothing
(`weak_ptr::lock`). -/
abbrev World (K : Kernel) := Nat → Option (Ship K)

/-- A weapon specification (class `Outfit`), with the lists the projectile code
iterates over. -/
inductive Outfit (K : Kernel) where
  | mk (attributes : String → K.Dbl) (sprite : K.Animation)
      (dieEffects : List (K.Effect × Int)) (hitEffects : List (K.Effect × Int))
      (submunitions : List (Outfit K × Int)) : Outfit K

/-- Method `Outfit::WeaponGet`. -/
def Outfit.WeaponGet : Outfit K → String → K.Dbl
  | .mk attributes _ _ _ _ => attributes

/-- Method `Outfit::WeaponSprite`. -/
def Outfit.WeaponSprite : Outfit K → K.Animation
  | .mk _ sprite _ _ _ => sprite

/-- Method `Outfit::DieEffects`. -/
def Outfit.DieEffects : Outfit K → List (K.Effect × Int)
  | .mk _ _ dieEffects _ _ => dieEffects

/-- Method `Outfit::HitEffects`. -/
def Outfit.HitEffects : Outfit K → List (K.Effect × Int)
  | .mk _ _ _ hitEffects _ => hitEffects

/-- Method `Outfit::Submunitions`. -/
def Outfit.Submunitions : Outfit K → List (Outfit K × Int)
  | .mk _ _ _ _ submunitions => submunitions

/-- The data members of class `Projectile`. -/
structure Projectile (K : Kernel) where
  weapon : Outfit K
  animation : K.Animation
  system : Nat
  position : K.Point
  velocity : K.Point
  angle : K.Angle
  targetShip : Option Nat
  government : Nat
  lifetime : Int

/-- Result of `Projectile::Move`: the returned flag, the projectile afterwards and
the effect list afterwards. -/
structure MoveResult (K : Kernel) where
  alive : Bool
  projectile : Projectile K
  effects : List K.Effect

/-- The effect loops of `Move` and `Explode`: for every `(template, count)` entry,
`count` times push a copy of the template and `Place` it. -/
def placeAll (K : Kernel) (entries : List (K.Effect × Int)) (position velocity : K.Point)
    (angle : K.Angle) (effects : List K.Effect) : List K.Effect :=
  entries.foldl
    (fun acc it => acc ++ List.replicate it.2.toNat (K.Place it.1 position velocity angle))
    effects

/-- Body shared by both constructors (lines 27-31 and 43-47): perturb the angle
when the weapon is inaccurate, then add the muzzle velocity along the facing. -/
def Projectile.init (p : Projectile K) (rng : K.Rng) : Projectile K × K.Rng :=
  let inaccuracy := p.weapon.WeaponGet "inaccuracy"
  let first := K.Random inaccuracy rng
  let second := K.Random inaccuracy first.2
  let angle := if K.nonzero inaccuracy then K.angleAdd p.angle (K.angleSub first.1 second.1)
    else p.angle
  let rng := if K.nonzero inaccuracy then second.2 else rng
  ({ p with
      angle := angle
      velocity := K.padd p.velocity (K.mulPD (K.Unit angle) (p.weapon.WeaponGet "velocity")) },
    rng)

/-- Constructor `Projectile(const Ship &parent, Point position, Angle angle,
const Outfit *weapon)`. -/
def Projectile.ofShip (parent : Ship K) (position : K.Point) (angle : K.Angle)
    (weapon : Outfit K) (rng : K.Rng) : Projectile K × K.Rng :=
  Projectile.init
    { weapon := weapon
      animation := weapon.WeaponSprite
      system := parent.GetSystem
      position := position
      velocity := parent.Velocity
      angle := angle
      targetShip := parent.GetTargetShip
      government := parent.GetGovernment
      lifetime := K.toInt (weapon.WeaponGet "lifetime") }
    rng

/-- Constructor `Projectile(const Projectile &parent, const Outfit *weapon)`. -/
def Projectile.ofProjectile (parent : Projectile K) (weapon : Outfit K) (rng : K.Rng) :
    Projectile K × K.Rng :=
  Projectile.init
    { weapon := weapon
      animation := weapon.WeaponSprite
      system := parent.system
      position := parent.position
      velocity := parent.velocity
      angle := parent.angle
      targetShip := parent.targetShip
      government := parent.government
      lifetime := K.toInt (weapon.WeaponGet "lifetime") }
    rng

/-- Method `Projectile::Target`: lock the weak pointer. -/
def Projectile.Target (w : World K) (p : Projectile K) : Option (Ship K) :=
  p.targetShip.bind w

/-- Lines 81-119 of `Move`: the guidance law for a held target `t` and a non-zero
homing level.  Returns the turn, the acceleration and the target handle. -/
def Projectile.home (p : Projectile K) (t : Ship K) (homing : Int) (turn accel : K.Dbl) :
    K.Dbl × K.Dbl × Option Nat :=
  let d := K.psub p.position t.Position
  let drag := p.weapon.WeaponGet "drag"
  let trueVelocity := if K.nonzero drag then K.div accel drag else K.Length p.velocity
  let stepsToReach := K.div (K.Length d) trueVelocity
  let isFacingAway := K.gt (K.Dot d (K.Unit p.angle)) K.zero
  let d := if homing = 4 then K.psub d (K.mulDP stepsToReach t.Velocity) else d
  let stepsToReach := if homing = 4 then K.div (K.Length d) trueVelocity else stepsToReach
  let cross := K.Cross (K.PUnit d) (K.Unit p.angle)
  if isFacingAway = true ∧ homing = 1 then
    (turn, accel, none)
  else
    let desiredTurn := K.mul (K.div K.oneEighty K.M_PI) (K.asin cross)
    let turn := if K.gt (K.fabs desiredTurn) turn then K.copysign turn desiredTurn
      else desiredTurn
    let accel := if 3 ≤ homing then
        (if K.gt (K.mul (K.div desiredTurn turn) K.onePointFive) stepsToReach then K.zero
          else accel)
      else accel
    (turn, accel, p.targetShip)

/-- Lines 125-134 of `Move`: apply the turn, accelerate with drag, integrate. -/
def Projectile.advance (p : Projectile K) (lifetime : Int) (targetShip : Option Nat)
    (turn accel : K.Dbl) : Projectile K :=
  let angle := if K.nonzero turn then K.angleAdd p.angle (K.angleOfDeg turn) else p.angle
  let velocity := if K.nonzero accel then
      K.mulPD (K.padd p.velocity (K.mulDP accel (K.Unit angle)))
        (K.sub K.one (p.weapon.WeaponGet "drag"))
    else p.velocity
  { p with
    lifetime := lifetime
    targetShip := targetShip
    angle := angle
    velocity := velocity
    position := K.padd p.position velocity }

/-- Lines 69-74 of `Move`: has the held target left the home system? -/
def Projectile.targetLeft (w : World K) (p : Projectile K) : Bool :=
  match p.Target w with
  | some t => decide (t.GetSystem ≠ p.system)
  | none => false

/-- Lines 69-123 of `Move`: the turn, the acceleration and the target handle the
tick ends with. -/
def Projectile.guide (w : World K) (p : Projectile K) : K.Dbl × K.Dbl × Option Nat :=
  let targetShip := if p.targetLeft w then none else p.targetShip
  let target := if p.targetLeft w then none else p.Target w
  let turn := p.weapon.WeaponGet "turn"
  let accel := p.weapon.WeaponGet "acceleration"
  let homing := K.toInt (p.weapon.WeaponGet "homing")
  match target with
  | some t =>
    if homing ≠ 0 then Projectile.home p t homing turn accel
    else (turn, accel, targetShip)
  | none =>
    if homing ≠ 0 then (K.zero, accel, targetShip) else (turn, accel, targetShip)

/-- Method `Projectile::Move`. -/
def Projectile.Move (w : World K) (p : Projectile K) (effects : List K.Effect) :
    MoveResult K :=
  let lifetime := p.lifetime - 1
  if lifetime ≤ 0 then
    { alive := false
      projectile := { p with lifetime := lifetime }
      effects :=
        if lifetime > -100 then
          placeAll K p.weapon.DieEffects p.position p.velocity p.angle effects
        else effects }
  else
    let g := p.guide w
    { alive := true
      projectile := p.advance lifetime g.2.2 g.1 g.2.1
      effects := effects }

/-- Method `Projectile::MakeSubmunitions`, inner loop: `count` times construct a
child from this projectile and the child weapon at the back of the list. -/
def Projectile.emplaceCopies (p : Projectile K) (weapon : Outfit K) :
    Nat → List (Projectile K) × K.Rng → List (Projectile K) × K.Rng
  | 0, s => s
  | n + 1, s =>
    Projectile.emplaceCopies p weapon n
      (s.1 ++ [(Projectile.ofProjectile p weapon s.2).1], (Projectile.ofProjectile p weapon s.2).2)

/-- Method `Projectile::MakeSubmunitions`.  The generator state is threaded
through because the child constructor may call `Angle::Random`. -/
def Projectile.MakeSubmunitions (p : Projectile K) (projectiles : List (Projectile K))
    (rng : K.Rng) : List (Projectile K) × K.Rng :=
  p.weapon.Submunitions.foldl
    (fun s it => Projectile.emplaceCopies p it.1 it.2.toNat s)
    (projectiles, rng)

/-- Method `Projectile::CheckCollision`. -/
def Projectile.CheckCollision (p : Projectile K) (ship : Ship K) (step : Int) : K.Dbl :=
  let radius := p.weapon.WeaponGet "trigger radius"
  if K.gt radius K.zero = true ∧
      (ship.GetMask step).WithinRange (K.psub p.position ship.Position) p.angle radius = true then
    K.zero
  else
    (ship.GetMask step).Collide (K.psub p.position ship.Position) p.velocity ship.Facing

/-- Method `Projectile::InBlastRadius`. -/
def Projectile.InBlastRadius (p : Projectile K) (ship : Ship K) (step : Int) : Bool :=
  let radius := p.weapon.WeaponGet "blast radius"
  if K.le radius K.zero then false
  else (ship.GetMask step).WithinRange (K.psub p.position ship.Position) p.angle radius

/-- Method `Projectile::Explode`: returns the projectile and the effect list
afterwards. -/
def Projectile.Explode (p : Projectile K) (effects : List K.Effect) (intersection : K.Dbl) :
    Projectile K × List K.Effect :=
  ({ p with lifetime := -100 },
    placeAll K p.weapon.HitEffects (K.padd p.position (K.mulPD p.velocity intersection))
      p.velocity p.angle effects)

/-- Method `Projectile::Hit`.  `TakeDamage` is the ship's damage method; the
projectile itself is not modified (the method is `const`). -/
def Projectile.Hit (TakeDamage : Ship K → K.Dbl → K.Dbl → K.Point → Ship K)
    (p : Projectile K) (ship : Ship K) : Ship K :=
  TakeDamage ship (p.weapon.WeaponGet "shield damage") (p.weapon.WeaponGet "hull damage")
    (K.mulPD (K.PUnit p.velocity) (p.weapon.WeaponGet "hit force"))

/-- Method `Projectile::Kill`. -/
def Projectile.Kill (p : Projectile K) : Projectile K :=
  { p with lifetime := 0 }

/-- Method `Projectile::MissileStrength`. -/
def Projectile.MissileStrength (p : Projectile K) : Int :=
  K.toInt (p.weapon.WeaponGet "missile strength")

/-- Consecutive `Move` calls, one per world in `ws` (the ships may change between
ticks), all writing to the same effect list: the flags returned, in call order. -/
def MoveFlags : List (World K) → Projectile K → List K.Effect → List Bool
  | [], _, _ => []
  | w :: ws, p, effects =>
    (p.Move w effects).alive :: MoveFlags ws (p.Move w effects).projectile (p.Move w effects).effects

/-- Consecutive `Move` calls, one per world in `ws`: the projectile and the effect
list after the last call. -/
def MoveAll : List (World K) → Projectile K → List K.Effect → Projectile K × List K.Effect
  | [], p, effects => (p, effects)
  | w :: ws, p, effects => MoveAll ws (p.Move w effects).projectile (p.Move w effects).effects

/-! ## A concrete kernel for running the code

Integer coordinates, angles in whole degrees (0 points along negative y, as on
screen), unit vectors exact at multiples of a right angle.  It is used to run
the definitions on explicit inputs.  What has no exact integer value (`1.5`,
`M_PI`, `asin`, `Length` off Pythagorean triples, `Unit` off the axes, the
random draws) is a coarse stand-in; no run below passes through those. -/

/-- An effect instance of the lattice kernel: its template number and where it
was last placed. -/
structure LatticeEffect where
  kind : Nat
  position : Int × Int
  velocity : Int × Int
  angle : Int
  deriving DecidableEq

/-- Unit vector of a whole-degree angle, exact at the four axis directions. -/
def latticeUnit (a : Int) : Int × Int :=
  if a % 360 = 0 then (0, -1)
  else if a % 360 = 90 then (1, 0)
  else if a % 360 = 180 then (0, 1)
  else if a % 360 = 270 then (-1, 0)
  else (0, 0)

/-- The lattice kernel. -/
@[reducible] def Lattice : Kernel where
  Dbl := Int
  Point := Int × Int
  Angle := Int
  Effect := LatticeEffect
  Animation := Nat
  Rng := Nat
  zero := 0
  one := 1
  onePointFive := 2
  oneEighty := 180
  M_PI := 3
  nonzero := fun x => decide (x ≠ 0)
  gt := fun a b => decide (a > b)
  le := fun a b => decide (a ≤ b)
  toInt := fun x => x
  sub := fun a b => a - b
  mul := fun a b => a * b
  div := fun a b => a / b
  fabs := fun a => Int.natAbs a
  asin := fun a => a
  copysign := fun m s => if s < 0 then - (Int.natAbs m : Int) else Int.natAbs m
  padd := fun p q => (p.1 + q.1, p.2 + q.2)
  psub := fun p q => (p.1 - q.1, p.2 - q.2)
  mulPD := fun p s => (p.1 * s, p.2 * s)
  mulDP := fun s p => (s * p.1, s * p.2)
  Length := fun p => Int.ofNat (Nat.sqrt (p.1 * p.1 + p.2 * p.2).toNat)
  Dot := fun p q => p.1 * q.1 + p.2 * q.2
  Cross := fun p q => p.1 * q.2 - p.2 * q.1
  PUnit := fun p => (Int.sign p.1, Int.sign p.2)
  angleOfDeg := fun d => d
  angleAdd := fun a b => a + b
  angleSub := fun a b => a - b
  Unit := latticeUnit
  Random := fun range seed => (Int.ofNat (seed % (range.toNat + 1)), seed + 1)
  Place := fun e position velocity angle =>
    { e with position := position, velocity := velocity, angle := angle }
  nonzero_zero := rfl

/-- The list the effect loops are meant to append: for each `(template, count)`
entry in order, `count` copies of the template placed at the given position,
velocity and angle. -/
def placedCopies (K : Kernel) (entries : List (K.Effect × Int)) (position velocity : K.Point)
    (angle : K.Angle) : List K.Effect :=
  entries.flatMap fun it => List.replicate it.2.toNat (K.Place it.1 position velocity angle)

/-! ## Concrete inputs -/

/-- Effect template used for die-effects. -/
def spark : LatticeEffect := { kind := 1, position := (0, 0), velocity := (0, 0), angle := 0 }

/-- Effect template used for hit-effects. -/
def flash : LatticeEffect := { kind := 2, position := (0, 0), velocity := (0, 0), angle := 0 }

/-- An unguided weapon: lifetime 3, no acceleration, no drag, homing 0, one die-effect
and one hit-effect. -/
def cannon : Outfit Lattice :=
  .mk (fun key => if key = "lifetime" then 3 else 0) 0 [(spark, 1)] [(flash, 1)] []

/-- A mask that reports every point in range and never a precise hit (fraction 1). -/
def wideMask : Mask Lattice :=
  { WithinRange := fun _ _ _ => true, Collide := fun _ _ _ => 1 }

/-- A ship at the origin of system 1, at rest, facing up, without a target. -/
def gunboat : Ship Lattice :=
  { Position := (0, 0), Velocity := (0, 0), Facing := 0, GetSystem := 1, GetGovernment := 2,
    GetTargetShip := none, GetMask := fun _ => wideMask }

/-- A world without ships. -/
def emptySpace : World Lattice := fun _ => none

/-- A projectile fired by `gunboat` from `cannon`. -/
def shot : Projectile Lattice := (Projectile.ofShip gunboat (0, 0) 0 cannon 0).1

/-- A submunition weapon: lifetime 10, muzzle velocity 5, accurate. -/
def flak : Outfit Lattice :=
  .mk (fun key => if key = "lifetime" then 10 else if key = "velocity" then 5 else 0) 0 [] [] []

/-- A weapon whose shells burst into two `flak` submunitions. -/
def flakCannon : Outfit Lattice :=
  .mk (fun key => if key = "lifetime" then 3 else 0) 0 [(spark, 1)] [(flash, 1)] [(flak, 2)]

/-- A shell of `flakCannon` at (3, 4), moving up at speed 2, about to die. -/
def shell : Projectile Lattice :=
  { weapon := flakCannon, animation := 0, system := 1, position := (3, 4), velocity := (0, -2),
    angle := 0, targetShip := some 7, government := 2, lifetime := 0 }

/-- A level 1 homing weapon: lifetime 100, turn rate 3 degrees, no acceleration. -/
def seeker : Outfit Lattice :=
  .mk (fun key => if key = "lifetime" then 100 else if key = "turn" then 3
    else if key = "homing" then 1 else 0) 0 [(spark, 1)] [(flash, 1)] []

/-- A mask whose outline is the single point at the ship's centre: a point is in
range when its squared distance to the centre is below the squared range, and
no segment is ever reported to hit (fraction 1). -/
def pointMask : Mask Lattice :=
  { WithinRange := fun point _ range => decide (point.1 * point.1 + point.2 * point.2 < range * range)
    Collide := fun _ _ _ => 1 }

/-- A ship at (0, 10) in system 1, at rest. -/
def prey : Ship Lattice :=
  { Position := (0, 10), Velocity := (0, 0), Facing := 0, GetSystem := 1, GetGovernment := 3,
    GetTargetShip := none, GetMask := fun _ => pointMask }

/-- A world in which handle 7 resolves to `prey`. -/
def chase : World Lattice := fun id => if id = 7 then some prey else none

/-- A `seeker` missile at the origin of system 1, flying and facing up (towards
negative y) with `prey`, which lies behind it, as its target. -/
def missile : Projectile Lattice :=
  { weapon := seeker, animation := 0, system := 1, position := (0, 0), velocity := (0, -4),
    angle := 0, targetShip := some 7, government := 2, lifetime := 100 }

/-- The ship `prey` after it has moved to system 2. -/
def strayPrey : Ship Lattice := { prey with GetSystem := 2 }

/-- A world in which handle 7 resolves to `strayPrey`. -/
def elsewhere : World Lattice := fun id => if id = 7 then some strayPrey else none

/-- A proximity weapon: trigger radius 50, blast radius 80, lifetime 20. -/
def fuse : Outfit Lattice :=
  .mk (fun key => if key = "trigger radius" then 50 else if key = "blast radius" then 80
    else if key = "lifetime" then 20 else 0) 0 [(spark, 1)] [(flash, 1)] []

/-- The weapon `fuse` with trigger radius 60 instead of 50, otherwise the same. -/
def fuseWide : Outfit Lattice :=
  .mk (fun key => if key = "trigger radius" then 60 else if key = "blast radius" then 80
    else if key = "lifetime" then 20 else 0) 0 [(spark, 1)] [(flash, 1)] []

/-- A `fuse` round at (30, 50), which is at distance 50 from `prey`. -/
def burst : Projectile Lattice :=
  { weapon := fuse, animation := 0, system := 1, position := (30, 50), velocity := (0, -4),
    angle := 0, targetShip := none, government := 2, lifetime := 20 }

/-- The round `burst` carrying `fuseWide`: it differs in trigger radius only. -/
def burstWide : Projectile Lattice := { burst with weapon := fuseWide }

/-- Damage model of the lattice kernel: the impulse is added to the velocity. -/
def latticeDamage (ship : Ship Lattice) (_shield _hull : Int) (impulse : Int × Int) :
    Ship Lattice :=
  { ship with Velocity := (ship.Velocity.1 + impulse.1, ship.Velocity.2 + impulse.2) }

/-- The round `missile` holding handle 9, which resolves in no world used here. -/
def lostMissile : Projectile Lattice := { missile with targetShip := some 9 }

/-! ## The quantities of the guidance law, named -/

/-- Line 83 of `Move`: the speed the projectile is taken to close in at. -/
def Projectile.trueVelocity (p : Projectile K) (accel : K.Dbl) : K.Dbl :=
  if K.nonzero (p.weapon.WeaponGet "drag") then K.div accel (p.weapon.WeaponGet "drag")
  else K.Length p.velocity

/-- Lines 81-92 of `Move`: the offset `d` of the projectile from its target, at
level 4 adjusted for the target's motion. -/
def Projectile.offset (p : Projectile K) (t : Ship K) (homing : Int) (accel : K.Dbl) : K.Point :=
  if homing = 4 then
    K.psub (K.psub p.position t.Position)
      (K.mulDP (K.div (K.Length (K.psub p.position t.Position)) (p.trueVelocity accel))
        t.Velocity)
  else K.psub p.position t.Position

/-- Lines 84 and 93 of `Move`: `stepsToReach` as it stands after line 94. -/
def Projectile.stepsToReach (p : Projectile K) (t : Ship K) (homing : Int) (accel : K.Dbl) :
    K.Dbl :=
  K.div (K.Length (p.offset t homing accel)) (p.trueVelocity accel)

/-- Lines 96 and 104 of `Move`: `desiredTurn`, the heading error in degrees. -/
def Projectile.desiredTurn (p : Projectile K) (t : Ship K) (homing : Int) (accel : K.Dbl) :
    K.Dbl :=
  K.mul (K.div K.oneEighty K.M_PI)
    (K.asin (K.Cross (K.PUnit (p.offset t homing accel)) (K.Unit p.angle)))

/-- Lines 105-108 of `Move`: `turn` after the clamp to the weapon's turn rate. -/
def Projectile.clampedTurn (p : Projectile K) (t : Ship K) (homing : Int)
    (turn accel : K.Dbl) : K.Dbl :=
  if K.gt (K.fabs (p.desiredTurn t homing accel)) turn then
    K.copysign turn (p.desiredTurn t homing accel)
  else p.desiredTurn t homing accel

/-- Lines 113-116 of `Move`: the test that stops the acceleration, with
`stepsToFace = desiredTurn / turn` taken on the clamped `turn`. -/
def Projectile.stopsAccelerating (p : Projectile K) (t : Ship K) (homing : Int)
    (turn accel : K.Dbl) : Bool :=
  K.gt (K.mul (K.div (p.desiredTurn t homing accel) (p.clampedTurn t homing turn accel))
    K.onePointFive) (p.stepsToReach t homing accel)

/-- The cutoff test in the words of the specification: `stepsToFace` is
`desiredTurn` divided by the weapon's configured turn rate. -/
def specCutoff (p : Projectile K) (t : Ship K) (homing : Int) (turnRate accel : K.Dbl) : Bool :=
  K.gt (K.mul (K.div (p.desiredTurn t homing accel) turnRate) K.onePointFive)
    (p.stepsToReach t homing accel)

/-! ## A rational kernel for running the guidance law

Exact arithmetic on rationals, angles in degrees.  `M_PI` is a rational, and
`asin`, `Length`, `Point::Unit` and `Angle::Unit` are exact at the arguments
named in their definitions and stand-ins elsewhere; the run below stays on
the exact arguments. -/

/-- An effect instance of the rational kernel: its template number and where it
was last placed. -/
structure RationalEffect where
  kind : Nat
  position : ℚ × ℚ
  velocity : ℚ × ℚ
  angle : ℚ

/-- Unit vector of an angle in degrees (0 points along negative y, as on screen),
exact at the four axis directions. -/
def rationalUnit (a : ℚ) : ℚ × ℚ :=
  if a = 0 then (0, -1)
  else if a = 90 ∨ a = -270 then (1, 0)
  else if a = 180 ∨ a = -180 then (0, 1)
  else if a = 270 ∨ a = -90 then (-1, 0)
  else (0, 0)

/-- Length of a vector, exact when the vector lies on an axis. -/
def rationalLength (p : ℚ × ℚ) : ℚ :=
  if p.1 = 0 then |p.2| else if p.2 = 0 then |p.1| else |p.1| + |p.2|

/-- Arc sine in radians relative to the kernel's `M_PI`, exact at 1 and -1 (a
quarter turn), so that `(180 / M_PI) * asin(1)` is 90 as over the reals. -/
def rationalAsin (x : ℚ) : ℚ :=
  if x = 1 then (355 / 113) / 2 else if x = -1 then -((355 / 113) / 2) else x

/-- The rational kernel. -/
@[reducible] def Rational : Kernel where
  Dbl := ℚ
  Point := ℚ × ℚ
  Angle := ℚ
  Effect := RationalEffect
  Animation := Nat
  Rng := Nat
  zero := 0
  one := 1
  onePointFive := 3 / 2
  oneEighty := 180
  M_PI := 355 / 113
  nonzero := fun x => decide (x ≠ 0)
  gt := fun a b => decide (a > b)
  le := fun a b => decide (a ≤ b)
  toInt := fun x => Int.tdiv x.num x.den
  sub := fun a b => a - b
  mul := fun a b => a * b
  div := fun a b => a / b
  fabs := fun a => |a|
  asin := rationalAsin
  copysign := fun m s => if s < 0 then -|m| else |m|
  padd := fun p q => (p.1 + q.1, p.2 + q.2)
  psub := fun p q => (p.1 - q.1, p.2 - q.2)
  mulPD := fun p s => (p.1 * s, p.2 * s)
  mulDP := fun s p => (s * p.1, s * p.2)
  Length := rationalLength
  Dot := fun p q => p.1 * q.1 + p.2 * q.2
  Cross := fun p q => p.1 * q.2 - p.2 * q.1
  PUnit := fun p => (p.1 / rationalLength p, p.2 / rationalLength p)
  angleOfDeg := fun d => d
  angleAdd := fun a b => a + b
  angleSub := fun a b => a - b
  Unit := rationalUnit
  Random := fun _ seed => (0, seed + 1)
  Place := fun e position velocity angle =>
    { e with position := position, velocity := velocity, angle := angle }
  nonzero_zero := by simp

/-- A level 3 homing weapon: turn rate 3 degrees, acceleration 1, no drag. -/
def interceptor : Outfit Rational :=
  .mk (fun key => if key = "lifetime" then 100 else if key = "turn" then 3
    else if key = "homing" then 3 else if key = "acceleration" then 1 else 0) 0 [] [] []

/-- A ship at rest at (-40, 0) in system 1. -/
def quarry : Ship Rational :=
  { Position := (-40, 0), Velocity := (0, 0), Facing := 0, GetSystem := 1, GetGovernment := 3,
    GetTargetShip := none,
    GetMask := fun _ => { WithinRange := fun _ _ _ => false, Collide := fun _ _ _ => 1 } }

/-- A world in which handle 7 resolves to `quarry`. -/
def hunt : World Rational := fun id => if id = 7 then some quarry else none

/-- An `interceptor` rocket at the origin of system 1, flying and facing up at
speed 4, with `quarry`, which lies 40 units to its left, as its target. -/
def rocket : Projectile Rational :=
  { weapon := interceptor, animation := 0, system := 1, position := (0, 0), velocity := (0, -4),
    angle := 0, targetShip := some 7, government := 2, lifetime := 100 }

/-! ## Lemmas about the effect loop and one `Move` call -/

theorem placeAll_eq (entries : List (K.Effect × Int)) (position velocity : K.Point)
    (angle : K.Angle) (effects : List K.Effect) :
    placeAll K entries position velocity angle effects =
      effects ++ placedCopies K entries position velocity angle := by
  unfold placeAll placedCopies
  induction entries generalizing effects with
  | nil => simp
  | cons it rest ih => simp [List.foldl_cons, ih, List.append_assoc]

theorem Move_alive (w : World K) (p : Projectile K) (effects : List K.Effect) :
    (p.Move w effects).alive = decide (1 < p.lifetime) := by
  unfold Projectile.Move
  by_cases h : p.lifetime - 1 ≤ 0
  · simp only [h, if_true]; simp; omega
  · simp only [h, if_false]; simp; omega

theorem Move_lifetime (w : World K) (p : Projectile K) (effects : List K.Effect) :
    (p.Move w effects).projectile.lifetime = p.lifetime - 1 := by
  unfold Projectile.Move
  by_cases h : p.lifetime - 1 ≤ 0
  · simp only [h, if_true]
  · simp only [h, if_false]; rfl

theorem Move_weapon (w : World K) (p : Projectile K) (effects : List K.Effect) :
    (p.Move w effects).projectile.weapon = p.weapon := by
  unfold Projectile.Move
  by_cases h : p.lifetime - 1 ≤ 0
  · simp only [h, if_true]
  · simp only [h, if_false]; rfl

/-- One `Move` call appends the die-effects exactly when the decremented lifetime
lies in `(-100, 0]`, that is when the call starts with lifetime in `-98 .. 1`. -/
theorem Move_effects (w : World K) (p : Projectile K) (effects : List K.Effect) :
    (p.Move w effects).effects =
      if -98 ≤ p.lifetime ∧ p.lifetime ≤ 1 then
        effects ++ placedCopies K p.weapon.DieEffects p.position p.velocity p.angle
      else effects := by
  unfold Projectile.Move
  by_cases h : p.lifetime - 1 ≤ 0
  · by_cases h2 : p.lifetime - 1 > -100
    · have h3 : -98 ≤ p.lifetime ∧ p.lifetime ≤ 1 := by omega
      simp only [h, h2, h3, if_true, and_self, placeAll_eq]
    · have h3 : ¬ (-98 ≤ p.lifetime ∧ p.lifetime ≤ 1) := by omega
      simp only [h, h2, h3, if_true, if_false]
  · have h3 : ¬ (-98 ≤ p.lifetime ∧ p.lifetime ≤ 1) := by omega
    simp only [h, h3, if_false]

/-- A call that starts with lifetime at most 1 changes the lifetime only. -/
theorem Move_expired (w : World K) (p : Projectile K) (effects : List K.Effect)
    (h : p.lifetime ≤ 1) :
    (p.Move w effects).projectile = { p with lifetime := p.lifetime - 1 } := by
  unfold Projectile.Move
  have h1 : p.lifetime - 1 ≤ 0 := by omega
  simp only [h1, if_true]

/-! ## Lemmas about consecutive `Move` calls -/

theorem MoveFlags_length (ws : List (World K)) (p : Projectile K) (effects : List K.Effect) :
    (MoveFlags ws p effects).length = ws.length := by
  induction ws generalizing p effects with
  | nil => rfl
  | cons w ws ih => simp [MoveFlags, ih]

/-- Call number `i + 1` of a run returns alive exactly when `i + 1` is below the
lifetime the run started with. -/
theorem MoveFlags_getElem (ws : List (World K)) (p : Projectile K) (effects : List K.Effect)
    (i : Nat) (hi : i < ws.length) :
    (MoveFlags ws p effects)[i]? = some (decide ((i : Int) + 1 < p.lifetime)) := by
  induction ws generalizing p effects i with
  | nil => simp at hi
  | cons w ws ih =>
    cases i with
    | zero => simp [MoveFlags, Move_alive]
    | succ j =>
      have hj : j < ws.length := by simpa using hi
      simp only [MoveFlags, List.getElem?_cons_succ, ih _ _ j hj, Move_lifetime]
      congr 1
      apply decide_eq_decide.mpr
      push_cast
      omega

/-- Once the lifetime is at or below -99, a run of `Move` calls returns false every
time, appends nothing and only lowers the lifetime. -/
theorem MoveAll_dead (ws : List (World K)) (p : Projectile K) (effects : List K.Effect)
    (h : p.lifetime ≤ -99) :
    MoveFlags ws p effects = List.replicate ws.length false ∧
      MoveAll ws p effects = ({ p with lifetime := p.lifetime - ws.length }, effects) := by
  induction ws generalizing p with
  | nil => simp [MoveFlags, MoveAll]
  | cons w ws ih =>
    have hal : (p.Move w effects).alive = false := by
      rw [Move_alive]; simp; omega
    have heff : (p.Move w effects).effects = effects := by
      rw [Move_effects]
      have h3 : ¬ (-98 ≤ p.lifetime ∧ p.lifetime ≤ 1) := by omega
      simp only [h3, if_false]
    have hpr := Move_expired w p effects (by omega)
    have hlt : ({ p with lifetime := p.lifetime - 1 } : Projectile K).lifetime ≤ -99 := by
      simp; omega
    have step := ih { p with lifetime := p.lifetime - 1 } hlt
    simp only [MoveFlags, MoveAll, hal, heff, hpr, step.1, step.2, List.length_cons,
      List.replicate_succ, true_and]
    congr 2
    push_cast
    omega

/-- A run in which every call returns alive leaves the effect list as it was. -/
theorem MoveAll_alive_silent (ws : List (World K)) (p : Projectile K) (effects : List K.Effect)
    (h : ∀ b ∈ MoveFlags ws p effects, b = true) :
    (MoveAll ws p effects).2 = effects := by
  induction ws generalizing p with
  | nil => rfl
  | cons w ws ih =>
    have h1 : (p.Move w effects).alive = true := h _ (by simp [MoveFlags])
    have heff : (p.Move w effects).effects = effects := by
      rw [Move_effects]
      rw [Move_alive] at h1
      have h3 : ¬ (-98 ≤ p.lifetime ∧ p.lifetime ≤ 1) := by
        have := of_decide_eq_true h1
        omega
      simp only [h3, if_false]
    simp only [MoveAll, heff]
    apply ih
    intro b hb
    apply h
    simp only [MoveFlags, heff, List.mem_cons]
    exact Or.inr hb

/-! ## Lifetime countdown (C1) -/

/-- C1, as amended: a projectile created with initial lifetime `L` (by either
constructor, whatever its homing level) that is only moved returns alive on
call number `k` exactly when `k < L`: alive on each of the first `L - 1` calls,
not alive on call `L` and on every later call. -/
theorem C1_alive_for_lifetime_minus_one (parent : Ship K) (from_ : Projectile K)
    (position : K.Point) (angle : K.Angle) (weapon : Outfit K) (rng : K.Rng)
    (ws : List (World K)) (effects : List K.Effect) (i : Nat) (hi : i < ws.length) :
    (Projectile.ofShip parent position angle weapon rng).1.lifetime =
        K.toInt (weapon.WeaponGet "lifetime") ∧
      (Projectile.ofProjectile from_ weapon rng).1.lifetime =
        K.toInt (weapon.WeaponGet "lifetime") ∧
      (MoveFlags ws (Projectile.ofShip parent position angle weapon rng).1 effects)[i]? =
        some (decide ((i : Int) + 1 < K.toInt (weapon.WeaponGet "lifetime"))) ∧
      (MoveFlags ws (Projectile.ofProjectile from_ weapon rng).1 effects)[i]? =
        some (decide ((i : Int) + 1 < K.toInt (weapon.WeaponGet "lifetime"))) :=
  ⟨rfl, rfl, MoveFlags_getElem ws _ effects i hi, MoveFlags_getElem ws _ effects i hi⟩

/-- C1, witness: the third of three calls on a shot of lifetime 3. -/
theorem C1_alive_for_lifetime_minus_one_witness :
    (MoveFlags [emptySpace, emptySpace, emptySpace] shot [])[2]? =
      some (decide (((2 : Nat) : Int) + 1 < Lattice.toInt (cannon.WeaponGet "lifetime"))) :=
  (C1_alive_for_lifetime_minus_one gunboat shot (0, 0) 0 cannon 0
    [emptySpace, emptySpace, emptySpace] [] 2 (by decide)).2.2.1

/-- C1, counterexample: an unguided shot created with lifetime 3 is reported not
alive already on its third call, so it is not alive on each of its first 3 calls. -/
theorem C1_counterexample :
    Lattice.toInt (cannon.WeaponGet "homing") = 0 ∧ shot.lifetime = 3 ∧
      MoveFlags [emptySpace, emptySpace, emptySpace, emptySpace] shot [] =
        [true, true, false, false] ∧
      ¬ (∀ i, i < 3 →
        (MoveFlags [emptySpace, emptySpace, emptySpace, emptySpace] shot [])[i]? = some true) := by
  refine ⟨by decide, by decide, by decide, ?_⟩
  intro h
  exact absurd (h 2 (by decide)) (by decide)

/-! ## Die-effects (C2) -/

/-- C2, as amended: a `Move` call appends the weapon's die-effects exactly when it
starts with lifetime in `-98 .. 1` (the decremented lifetime lies in `(-100, 0]`)
and appends nothing otherwise.  Hence calls that return alive append nothing, so
in a run that stops at its first not-alive return only the last call, on which
lifetime crosses from positive to non-positive, appends; and a call that starts
with lifetime at or below -99 appends nothing, nor does any call after it. -/
theorem C2_die_effects_window :
    (∀ (w : World K) (p : Projectile K) (effects : List K.Effect),
        (p.Move w effects).effects =
          if -98 ≤ p.lifetime ∧ p.lifetime ≤ 1 then
            effects ++ placedCopies K p.weapon.DieEffects p.position p.velocity p.angle
          else effects) ∧
      (∀ (ws : List (World K)) (p : Projectile K) (effects : List K.Effect),
        (∀ b ∈ MoveFlags ws p effects, b = true) → (MoveAll ws p effects).2 = effects) ∧
      (∀ (ws : List (World K)) (p : Projectile K) (effects : List K.Effect),
        p.lifetime ≤ -99 → (MoveAll ws p effects).2 = effects) :=
  ⟨Move_effects, MoveAll_alive_silent, fun ws p effects h => by
    rw [(MoveAll_dead ws p effects h).2]⟩

/-- C2, witness: two alive calls of a fresh shot append nothing, and neither do
two calls on the same shot once its lifetime is -100. -/
theorem C2_die_effects_window_witness :
    (MoveAll [emptySpace, emptySpace] shot [flash]).2 = [flash] ∧
      (MoveAll [emptySpace, emptySpace] { shot with lifetime := -100 } [flash]).2 = [flash] :=
  ⟨(C2_die_effects_window (K := Lattice)).2.1 [emptySpace, emptySpace] shot [flash] (by decide),
    (C2_die_effects_window (K := Lattice)).2.2 [emptySpace, emptySpace]
      { shot with lifetime := -100 } [flash] (by decide)⟩

/-- C2, counterexample: the fourth call on a shot of lifetime 3 starts with lifetime
0, already expired, and still appends the die-effect; the run of four calls has
two appending calls. -/
theorem C2_counterexample :
    (MoveAll [emptySpace, emptySpace, emptySpace] shot []).1.lifetime = 0 ∧
      (MoveAll [emptySpace, emptySpace, emptySpace] shot []).2 = [spark] ∧
      ((MoveAll [emptySpace, emptySpace, emptySpace] shot []).1.Move emptySpace
        (MoveAll [emptySpace, emptySpace, emptySpace] shot []).2).effects = [spark, spark] ∧
      ((MoveAll [emptySpace, emptySpace, emptySpace] shot []).1.Move emptySpace
        (MoveAll [emptySpace, emptySpace, emptySpace] shot []).2).effects ≠
          (MoveAll [emptySpace, emptySpace, emptySpace] shot []).2 ∧
      (MoveAll [emptySpace, emptySpace, emptySpace, emptySpace] shot []).2 = [spark, spark] := by
  decide

/-! ## Explosion (C3) -/

/-- C3: `Explode` leaves lifetime at most -100 (exactly -100); every run of `Move`
calls after it returns false on each call, leaves the effect list as it was and
leaves position, velocity and facing as they were. -/
theorem C3_explode_suppresses_die_effects (p : Projectile K) (effects : List K.Effect)
    (intersection : K.Dbl) (ws : List (World K)) (sink : List K.Effect) :
    (p.Explode effects intersection).1.lifetime ≤ -100 ∧
      MoveFlags ws (p.Explode effects intersection).1 sink = List.replicate ws.length false ∧
      (MoveAll ws (p.Explode effects intersection).1 sink).2 = sink ∧
      (MoveAll ws (p.Explode effects intersection).1 sink).1.position = p.position ∧
      (MoveAll ws (p.Explode effects intersection).1 sink).1.velocity = p.velocity ∧
      (MoveAll ws (p.Explode effects intersection).1 sink).1.angle = p.angle := by
  have h : (p.Explode effects intersection).1.lifetime ≤ -99 := by
    simp [Projectile.Explode]
  have hd := MoveAll_dead ws (p.Explode effects intersection).1 sink h
  refine ⟨by simp [Projectile.Explode], hd.1, ?_, ?_, ?_, ?_⟩ <;> rw [hd.2] <;> rfl

/-! ## Kill and Explode (C4, C5) -/

/-- One `Move` call on a projectile whose lifetime is 0. -/
theorem Move_at_zero (w : World K) (p : Projectile K) (sink : List K.Effect)
    (h : p.lifetime = 0) :
    (p.Move w sink).alive = false ∧
      (p.Move w sink).effects =
        sink ++ placedCopies K p.weapon.DieEffects p.position p.velocity p.angle ∧
      (p.Move w sink).projectile = { p with lifetime := -1 } := by
  refine ⟨?_, ?_, ?_⟩
  · rw [Move_alive, h]; decide
  · rw [Move_effects, h]; simp
  · rw [Move_expired w p sink (by omega), h]; rfl

/-- C4, as amended: `Explode` after `Kill` gives the state and effect list of
`Explode` alone (lifetime -100), and the next `Move` returns false and appends
nothing.  `Kill` after `Explode` resets lifetime from -100 to exactly 0 and
changes no other field, and the next `Move` returns false and appends the
die-effects. -/
theorem C4_kill_and_explode_orders (p : Projectile K) (effects : List K.Effect)
    (intersection : K.Dbl) (w : World K) (sink : List K.Effect) :
    p.Kill.Explode effects intersection = p.Explode effects intersection ∧
      (p.Kill.Explode effects intersection).1.lifetime = -100 ∧
      ((p.Kill.Explode effects intersection).1.Move w sink).alive = false ∧
      ((p.Kill.Explode effects intersection).1.Move w sink).effects = sink ∧
      (p.Explode effects intersection).1.Kill = { p with lifetime := 0 } ∧
      ((p.Explode effects intersection).1.Kill.Move w sink).alive = false ∧
      ((p.Explode effects intersection).1.Kill.Move w sink).effects =
        sink ++ placedCopies K p.weapon.DieEffects p.position p.velocity p.angle := by
  have hk : (p.Explode effects intersection).1.Kill = { p with lifetime := 0 } := rfl
  have hz := Move_at_zero w ({ p with lifetime := 0 } : Projectile K) sink rfl
  refine ⟨rfl, rfl, ?_, ?_, hk, ?_, ?_⟩
  · rw [Move_alive]; simp [Projectile.Explode, Projectile.Kill]
  · rw [Move_effects]; simp [Projectile.Explode, Projectile.Kill]
  · rw [hk]; exact hz.1
  · rw [hk]; exact hz.2.1

/-- C4, counterexample: `Kill` after `Explode` is not a no-op.  It lifts the
lifetime of an exploded shot from -100 to 0, and the next `Move` then appends
the die-effect after the hit-effect. -/
theorem C4_counterexample :
    (shot.Explode [] 0).1.lifetime = -100 ∧
      (shot.Explode [] 0).1.Kill.lifetime = 0 ∧
      ¬ ((shot.Explode [] 0).1.Kill.lifetime ≤ -100) ∧
      (shot.Explode [] 0).1.Kill ≠ (shot.Explode [] 0).1 ∧
      ((shot.Explode [] 0).1.Kill.Move emptySpace (shot.Explode [] 0).2).effects =
        [flash, spark] := by
  refine ⟨by decide, by decide, by decide, ?_, by decide⟩
  intro h
  exact absurd (congrArg Projectile.lifetime h) (by decide)

/-- C5: `Kill` sets lifetime to exactly 0 and changes no other field; the next
`Move` returns false, appends exactly the die-effects (for each entry in order,
`count` copies placed at the current position, velocity and facing; the
hit-effects play no part) and changes nothing but the lifetime, so position,
velocity, facing and target are as before. -/
theorem C5_kill_then_move (p : Projectile K) (w : World K) (sink : List K.Effect) :
    p.Kill = { p with lifetime := 0 } ∧
      (p.Kill.Move w sink).alive = false ∧
      (p.Kill.Move w sink).effects =
        sink ++ p.weapon.DieEffects.flatMap
          (fun it => List.replicate it.2.toNat (K.Place it.1 p.position p.velocity p.angle)) ∧
      (p.Kill.Move w sink).projectile = { p with lifetime := -1 } ∧
      (p.Kill.Move w sink).projectile.position = p.position ∧
      (p.Kill.Move w sink).projectile.velocity = p.velocity ∧
      (p.Kill.Move w sink).projectile.angle = p.angle ∧
      (p.Kill.Move w sink).projectile.targetShip = p.targetShip := by
  have hz := Move_at_zero w p.Kill sink rfl
  have hp : (p.Kill.Move w sink).projectile = { p with lifetime := -1 } := hz.2.2
  refine ⟨rfl, hz.1, hz.2.1, hp, ?_, ?_, ?_, ?_⟩ <;> rw [hp]

/-! ## Submunitions (C6) -/

/-- What the child constructor copies, and what it changes. -/
theorem ofProjectile_fields (p : Projectile K) (weapon : Outfit K) (rng : K.Rng) :
    (Projectile.ofProjectile p weapon rng).1.position = p.position ∧
      (Projectile.ofProjectile p weapon rng).1.targetShip = p.targetShip ∧
      (Projectile.ofProjectile p weapon rng).1.government = p.government ∧
      (Projectile.ofProjectile p weapon rng).1.system = p.system ∧
      (Projectile.ofProjectile p weapon rng).1.weapon = weapon ∧
      (Projectile.ofProjectile p weapon rng).1.velocity =
        K.padd p.velocity (K.mulPD (K.Unit (Projectile.ofProjectile p weapon rng).1.angle)
          (weapon.WeaponGet "velocity")) ∧
      (K.nonzero (weapon.WeaponGet "inaccuracy") = false →
        (Projectile.ofProjectile p weapon rng).1.angle = p.angle) := by
  refine ⟨rfl, rfl, rfl, rfl, rfl, rfl, ?_⟩
  intro h
  simp [Projectile.ofProjectile, Projectile.init, h]

/-- The inner loop appends `n` children, each built by the child constructor. -/
theorem emplaceCopies_spec (p : Projectile K) (weapon : Outfit K) (n : Nat)
    (s : List (Projectile K) × K.Rng) :
    ∃ added, (Projectile.emplaceCopies p weapon n s).1 = s.1 ++ added ∧ added.length = n ∧
      ∀ c ∈ added, ∃ r, c = (Projectile.ofProjectile p weapon r).1 := by
  induction n generalizing s with
  | zero => exact ⟨[], by simp [Projectile.emplaceCopies]⟩
  | succ n ih =>
    obtain ⟨added, h1, h2, h3⟩ := ih (s.1 ++ [(Projectile.ofProjectile p weapon s.2).1],
      (Projectile.ofProjectile p weapon s.2).2)
    refine ⟨(Projectile.ofProjectile p weapon s.2).1 :: added, ?_, by simp [h2], ?_⟩
    · simp only [Projectile.emplaceCopies, h1]; simp
    · intro c hc
      rcases List.mem_cons.mp hc with rfl | hc
      · exact ⟨s.2, rfl⟩
      · exact h3 c hc

/-- The outer loop appends, entry by entry, as many children as the counts say. -/
theorem submunitions_fold (p : Projectile K) (entries : List (Outfit K × Int))
    (s : List (Projectile K) × K.Rng) :
    ∃ added,
      (entries.foldl (fun s it => Projectile.emplaceCopies p it.1 it.2.toNat s) s).1 =
          s.1 ++ added ∧
        added.length = (entries.map fun it => it.2.toNat).sum ∧
        ∀ c ∈ added, ∃ it ∈ entries, ∃ r, c = (Projectile.ofProjectile p it.1 r).1 := by
  induction entries generalizing s with
  | nil => exact ⟨[], by simp⟩
  | cons it rest ih =>
    obtain ⟨a1, h1, h2, h3⟩ := emplaceCopies_spec p it.1 it.2.toNat s
    obtain ⟨a2, g1, g2, g3⟩ := ih (Projectile.emplaceCopies p it.1 it.2.toNat s)
    refine ⟨a1 ++ a2, ?_, ?_, ?_⟩
    · simp only [List.foldl_cons, g1, h1, List.append_assoc]
    · simp [h2, g2]
    · intro c hc
      rcases List.mem_append.mp hc with hc | hc
      · obtain ⟨r, hr⟩ := h3 c hc
        exact ⟨it, by simp, r, hr⟩
      · obtain ⟨it2, hit, r, hr⟩ := g3 c hc
        exact ⟨it2, List.mem_cons_of_mem _ hit, r, hr⟩

/-- What `MakeSubmunitions` appends: the old contents are kept, the number of
children is the sum of the counts, and every child is built by the child
constructor from this projectile and one of the configured weapons. -/
theorem MakeSubmunitions_children (p : Projectile K) (projectiles : List (Projectile K))
    (rng : K.Rng) :
    (p.MakeSubmunitions projectiles rng).1.take projectiles.length = projectiles ∧
      (p.MakeSubmunitions projectiles rng).1.length =
        projectiles.length + (p.weapon.Submunitions.map fun it => it.2.toNat).sum ∧
      (∀ c ∈ (p.MakeSubmunitions projectiles rng).1.drop projectiles.length,
        c.position = p.position ∧ c.targetShip = p.targetShip ∧
          c.government = p.government ∧ c.system = p.system ∧
          (∃ it ∈ p.weapon.Submunitions, c.weapon = it.1) ∧
          c.velocity =
            K.padd p.velocity (K.mulPD (K.Unit c.angle) (c.weapon.WeaponGet "velocity")) ∧
          (K.nonzero (c.weapon.WeaponGet "inaccuracy") = false → c.angle = p.angle)) := by
  obtain ⟨added, h1, h2, h3⟩ := submunitions_fold p p.weapon.Submunitions (projectiles, rng)
  have hms : (p.MakeSubmunitions projectiles rng).1 = projectiles ++ added := h1
  refine ⟨by rw [hms]; simp, by rw [hms, List.length_append, h2], ?_⟩
  intro c hc
  rw [hms] at hc
  simp at hc
  obtain ⟨it, hit, r, rfl⟩ := h3 c hc
  obtain ⟨f1, f2, f3, f4, f5, f6, f7⟩ := ofProjectile_fields p it.1 r
  refine ⟨f1, f2, f3, f4, ⟨it, hit, f5⟩, ?_, ?_⟩
  · rw [f5]; exact f6
  · rw [f5]; exact f7

/-- C6, as amended: `MakeSubmunitions` keeps the existing contents of the list and
appends exactly `n_1 + ... + n_k` new projectiles after them (a count that is
not positive contributes none; exactly 2 for the list `[(Flak, 2)]`).  Every
appended projectile carries one of the configured child weapons and has this
projectile's position, target, government and home system.  Its velocity is
this projectile's velocity plus the child weapon's muzzle velocity along the
child's facing, and its facing is this projectile's facing when the child
weapon's inaccuracy is zero. -/
theorem C6_submunitions (p : Projectile K) (projectiles : List (Projectile K)) (rng : K.Rng) :
    (p.MakeSubmunitions projectiles rng).1.take projectiles.length = projectiles ∧
      (p.MakeSubmunitions projectiles rng).1.length =
        projectiles.length + (p.weapon.Submunitions.map fun it => it.2.toNat).sum ∧
      (∀ flak : Outfit K, p.weapon.Submunitions = [(flak, 2)] →
        (p.MakeSubmunitions projectiles rng).1.length = projectiles.length + 2) ∧
      (∀ c ∈ (p.MakeSubmunitions projectiles rng).1.drop projectiles.length,
        c.position = p.position ∧ c.targetShip = p.targetShip ∧
          c.government = p.government ∧ c.system = p.system ∧
          (∃ it ∈ p.weapon.Submunitions, c.weapon = it.1) ∧
          c.velocity =
            K.padd p.velocity (K.mulPD (K.Unit c.angle) (c.weapon.WeaponGet "velocity")) ∧
          (K.nonzero (c.weapon.WeaponGet "inaccuracy") = false → c.angle = p.angle)) := by
  obtain ⟨h1, h2, h3⟩ := MakeSubmunitions_children p projectiles rng
  refine ⟨h1, h2, ?_, h3⟩
  intro flak hf
  rw [h2, hf]; rfl

/-- C6, counterexample: a shell moving at (0, -2) bursts into two flak rounds of
muzzle velocity 5; both children move at (0, -7), not at the shell's velocity. -/
theorem C6_counterexample :
    shell.weapon.Submunitions = [(flak, 2)] ∧ shell.velocity = (0, -2) ∧
      (shell.MakeSubmunitions [] 0).1.map (fun c => c.velocity) = [(0, -7), (0, -7)] ∧
      ¬ (∀ c ∈ (shell.MakeSubmunitions [] 0).1, c.velocity = shell.velocity) := by
  refine ⟨rfl, rfl, by decide, by decide⟩

/-- C6, witness: the shell with submunition list `[(flak, 2)]` and its first child. -/
theorem C6_submunitions_witness :
    (shell.MakeSubmunitions [] 0).1.length = 0 + 2 ∧
      (Projectile.ofProjectile shell flak 0).1.position = shell.position ∧
      (Projectile.ofProjectile shell flak 0).1.angle = shell.angle :=
  ⟨(C6_submunitions shell [] 0).2.2.1 flak rfl,
    ((C6_submunitions shell [] 0).2.2.2 (Projectile.ofProjectile shell flak 0).1
      (List.Mem.head _)).1,
    ((C6_submunitions shell [] 0).2.2.2 (Projectile.ofProjectile shell flak 0).1
      (List.Mem.head _)).2.2.2.2.2.2 (by decide)⟩

/-! ## Guidance lemmas -/

/-- A call that starts with lifetime above 1 runs the guidance and returns alive. -/
theorem Move_of_alive (w : World K) (p : Projectile K) (effects : List K.Effect)
    (h : 1 < p.lifetime) :
    p.Move w effects =
      { alive := true
        projectile := p.advance (p.lifetime - 1) (p.guide w).2.2 (p.guide w).1 (p.guide w).2.1
        effects := effects } := by
  unfold Projectile.Move
  have h1 : ¬ (p.lifetime - 1 ≤ 0) := by omega
  simp only [h1, if_false]

/-- Guidance when the handle does not resolve. -/
theorem guide_without_target (w : World K) (p : Projectile K) (h : p.Target w = none) :
    p.guide w =
      (if K.toInt (p.weapon.WeaponGet "homing") ≠ 0 then K.zero else p.weapon.WeaponGet "turn",
        p.weapon.WeaponGet "acceleration", p.targetShip) := by
  have hl : p.targetLeft w = false := by simp [Projectile.targetLeft, h]
  unfold Projectile.guide
  simp only [hl, h]
  split <;> simp_all
  split <;> rfl

/-- Guidance when the held target is in another system. -/
theorem guide_target_left (w : World K) (p : Projectile K) (t : Ship K)
    (h : p.Target w = some t) (hs : t.GetSystem ≠ p.system) :
    p.guide w =
      (if K.toInt (p.weapon.WeaponGet "homing") ≠ 0 then K.zero else p.weapon.WeaponGet "turn",
        p.weapon.WeaponGet "acceleration", none) := by
  have hl : p.targetLeft w = true := by simp [Projectile.targetLeft, h, hs]
  unfold Projectile.guide
  simp only [hl]
  split <;> simp_all
  split <;> rfl

/-- Guidance at homing level 1 when facing away from an in-system target. -/
theorem guide_level_one_away (w : World K) (p : Projectile K) (t : Ship K)
    (h : p.Target w = some t) (hs : t.GetSystem = p.system)
    (hh : K.toInt (p.weapon.WeaponGet "homing") = 1)
    (ha : K.gt (K.Dot (K.psub p.position t.Position) (K.Unit p.angle)) K.zero = true) :
    p.guide w = (p.weapon.WeaponGet "turn", p.weapon.WeaponGet "acceleration", none) := by
  have hl : p.targetLeft w = false := by simp [Projectile.targetLeft, h, hs]
  unfold Projectile.guide
  simp only [hl, h, hh]
  simp [Projectile.home, ha]

/-- The guidance law keeps the handle or empties it. -/
theorem home_targetShip (p : Projectile K) (t : Ship K) (homing : Int) (turn accel : K.Dbl) :
    (p.home t homing turn accel).2.2 = p.targetShip ∨ (p.home t homing turn accel).2.2 = none := by
  unfold Projectile.home
  simp only
  split
  · exact Or.inr rfl
  · exact Or.inl rfl

/-- Guidance keeps the handle or empties it. -/
theorem guide_targetShip (w : World K) (p : Projectile K) :
    (p.guide w).2.2 = p.targetShip ∨ (p.guide w).2.2 = none := by
  unfold Projectile.guide
  simp only
  by_cases hl : p.targetLeft w = true
  · simp only [hl, if_true]
    split <;> simp
  · simp only [hl]
    split
    · split
      · exact home_targetShip _ _ _ _ _
      · simp
    · split <;> simp

/-- One `Move` call keeps the handle or empties it. -/
theorem Move_targetShip (w : World K) (p : Projectile K) (effects : List K.Effect) :
    (p.Move w effects).projectile.targetShip = p.targetShip ∨
      (p.Move w effects).projectile.targetShip = none := by
  by_cases h : 1 < p.lifetime
  · rw [Move_of_alive w p effects h]
    exact guide_targetShip w p
  · rw [Move_expired w p effects (by omega)]
    exact Or.inl rfl

/-- A run of `Move` calls keeps the handle or empties it. -/
theorem MoveAll_targetShip (ws : List (World K)) (p : Projectile K) (effects : List K.Effect) :
    (MoveAll ws p effects).1.targetShip = p.targetShip ∨
      (MoveAll ws p effects).1.targetShip = none := by
  induction ws generalizing p effects with
  | nil => exact Or.inl rfl
  | cons w ws ih =>
    simp only [MoveAll]
    rcases ih (p.Move w effects).projectile (p.Move w effects).effects with h | h
    · rw [h]; exact Move_targetShip w p effects
    · exact Or.inr h

/-- A handle that is the old one or empty stays unresolvable in every world in
which handles that were unresolvable stay so. -/
theorem Target_stays_none (w v : World K) (p q : Projectile K)
    (hq : q.targetShip = p.targetShip ∨ q.targetShip = none) (h : p.Target w = none)
    (hv : ∀ id, w id = none → v id = none) : q.Target v = none := by
  unfold Projectile.Target at *
  rcases hq with hq | hq
  · rw [hq]
    cases ht : p.targetShip with
    | none => rfl
    | some id =>
      rw [ht] at h
      exact hv id h
  · rw [hq]; rfl

/-- A `Move` call on a homing projectile whose handle is empty leaves the handle
empty and the facing as it was. -/
theorem Move_untargeted (w : World K) (p : Projectile K) (effects : List K.Effect)
    (ht : p.targetShip = none) (hh : K.toInt (p.weapon.WeaponGet "homing") ≠ 0) :
    (p.Move w effects).projectile.targetShip = none ∧
      (p.Move w effects).projectile.angle = p.angle := by
  by_cases h : 1 < p.lifetime
  · have hT : p.Target w = none := by simp [Projectile.Target, ht]
    rw [Move_of_alive w p effects h, guide_without_target w p hT]
    simp [Projectile.advance, hh, ht, K.nonzero_zero]
  · rw [Move_expired w p effects (by omega)]
    exact ⟨ht, rfl⟩

/-- A run of `Move` calls keeps the weapon. -/
theorem MoveAll_weapon (ws : List (World K)) (p : Projectile K) (effects : List K.Effect) :
    (MoveAll ws p effects).1.weapon = p.weapon := by
  induction ws generalizing p effects with
  | nil => rfl
  | cons w ws ih => simp only [MoveAll]; rw [ih, Move_weapon]

/-- Every run of `Move` calls on a homing projectile whose handle is empty leaves
the facing as it was. -/
theorem MoveAll_untargeted (ws : List (World K)) (p : Projectile K) (effects : List K.Effect)
    (ht : p.targetShip = none) (hh : K.toInt (p.weapon.WeaponGet "homing") ≠ 0) :
    (MoveAll ws p effects).1.targetShip = none ∧ (MoveAll ws p effects).1.angle = p.angle := by
  induction ws generalizing p effects with
  | nil => exact ⟨ht, rfl⟩
  | cons w ws ih =>
    have h1 := Move_untargeted w p effects ht hh
    have hw : K.toInt ((p.Move w effects).projectile.weapon.WeaponGet "homing") ≠ 0 := by
      rw [Move_weapon]; exact hh
    have h2 := ih (p.Move w effects).projectile (p.Move w effects).effects h1.1 hw
    simp only [MoveAll]
    exact ⟨h2.1, h2.2.trans h1.2⟩

/-- The call on which a level 1 projectile finds itself facing away from its
target: the handle is emptied, and the facing is advanced by the weapon's full
turn rate unless that rate is zero. -/
theorem Move_level_one_away (w : World K) (p : Projectile K) (effects : List K.Effect)
    (t : Ship K) (hl : 1 < p.lifetime) (h : p.Target w = some t) (hs : t.GetSystem = p.system)
    (hh : K.toInt (p.weapon.WeaponGet "homing") = 1)
    (ha : K.gt (K.Dot (K.psub p.position t.Position) (K.Unit p.angle)) K.zero = true) :
    (p.Move w effects).alive = true ∧
      (p.Move w effects).projectile.targetShip = none ∧
      (p.Move w effects).projectile.angle =
        (if K.nonzero (p.weapon.WeaponGet "turn") then
          K.angleAdd p.angle (K.angleOfDeg (p.weapon.WeaponGet "turn"))
        else p.angle) := by
  rw [Move_of_alive w p effects hl, guide_level_one_away w p t h hs hh ha]
  exact ⟨rfl, rfl, rfl⟩

/-! ## Homing level 1 (C7) -/

/-- C7, the code run on a concrete input: a level 1 missile with turn rate 3 faces
up while its in-system target lies behind it.  The `Move` call drops the target
and nevertheless turns the missile from 0 to 3 degrees; the following call
leaves the facing at 3 degrees. -/
theorem C7_drop_call_turns_at_full_rate :
    Lattice.toInt (missile.weapon.WeaponGet "homing") = 1 ∧
      missile.Target chase = some prey ∧ prey.GetSystem = missile.system ∧
      Lattice.gt (Lattice.Dot (Lattice.psub missile.position prey.Position)
        (Lattice.Unit missile.angle)) Lattice.zero = true ∧
      (missile.Move chase []).alive = true ∧
      (missile.Move chase []).projectile.targetShip = none ∧
      missile.angle = 0 ∧
      (missile.Move chase []).projectile.angle = 3 ∧
      ((missile.Move chase []).projectile.Move chase []).projectile.angle = 3 := by
  refine ⟨by decide, rfl, rfl, by decide, by decide, by decide, rfl, by decide, by decide⟩

/-! ## Collision queries (C8, C9) -/

/-- C8, as amended: when the trigger radius is positive and the ship mask's
`WithinRange` query with that radius holds, `CheckCollision` returns exactly 0,
whatever `Collide` would return; in every other case (also when the trigger
radius is not positive) it returns exactly the mask's
`Collide(position - ship position, velocity, ship facing)`. -/
theorem C8_check_collision (p : Projectile K) (ship : Ship K) (step : Int) :
    (K.gt (p.weapon.WeaponGet "trigger radius") K.zero = true →
      (ship.GetMask step).WithinRange (K.psub p.position ship.Position) p.angle
        (p.weapon.WeaponGet "trigger radius") = true →
      p.CheckCollision ship step = K.zero) ∧
    (¬ (K.gt (p.weapon.WeaponGet "trigger radius") K.zero = true ∧
        (ship.GetMask step).WithinRange (K.psub p.position ship.Position) p.angle
          (p.weapon.WeaponGet "trigger radius") = true) →
      p.CheckCollision ship step =
        (ship.GetMask step).Collide (K.psub p.position ship.Position) p.velocity ship.Facing) := by
  constructor
  · intro h1 h2
    simp [Projectile.CheckCollision, h1, h2]
  · intro h
    unfold Projectile.CheckCollision
    simp only [h, if_false]

/-- C8, witness: a round with trigger radius 60 at distance 50 of the ship, and the
same round with trigger radius 50. -/
theorem C8_check_collision_witness :
    burstWide.CheckCollision prey 0 = Lattice.zero ∧
      burst.CheckCollision prey 0 =
        (prey.GetMask 0).Collide (Lattice.psub burst.position prey.Position) burst.velocity
          prey.Facing :=
  ⟨(C8_check_collision burstWide prey 0).1 (by decide) (by decide),
    (C8_check_collision burst prey 0).2 (by decide)⟩

/-- C8, counterexample: a weapon without trigger radius (0) and a ship whose mask
answers the range query with radius 0 positively; `CheckCollision` returns the
`Collide` result 1, not 0. -/
theorem C8_counterexample :
    shot.weapon.WeaponGet "trigger radius" = 0 ∧
      (gunboat.GetMask 0).WithinRange (Lattice.psub shot.position gunboat.Position) shot.angle
        (shot.weapon.WeaponGet "trigger radius") = true ∧
      shot.CheckCollision gunboat 0 = 1 ∧
      shot.CheckCollision gunboat 0 ≠ Lattice.zero := by
  decide

/-- C9: `InBlastRadius` is true exactly when the blast radius is positive (not
`<= 0`) and the ship's mask reports the projectile, taken relative to the ship's
centre, within that radius.  The answer does not depend on the trigger radius
(two projectiles that differ in the weapon's trigger radius only agree) nor on
the `Collide` test behind `CheckCollision` (two ships at the same place whose
masks agree on range queries agree). -/
theorem C9_in_blast_radius (p : Projectile K) (ship : Ship K) (step : Int) :
    (p.InBlastRadius ship step = true ↔
        (K.le (p.weapon.WeaponGet "blast radius") K.zero = false ∧
          (ship.GetMask step).WithinRange (K.psub p.position ship.Position) p.angle
            (p.weapon.WeaponGet "blast radius") = true)) ∧
      (∀ q : Projectile K, q.position = p.position → q.angle = p.angle →
        (∀ key, key ≠ "trigger radius" → q.weapon.WeaponGet key = p.weapon.WeaponGet key) →
        q.InBlastRadius ship step = p.InBlastRadius ship step) ∧
      (∀ other : Ship K, other.Position = ship.Position →
        (∀ point facing range, (other.GetMask step).WithinRange point facing range =
          (ship.GetMask step).WithinRange point facing range) →
        p.InBlastRadius other step = p.InBlastRadius ship step) := by
  refine ⟨?_, ?_, ?_⟩
  · unfold Projectile.InBlastRadius
    cases h : K.le (p.weapon.WeaponGet "blast radius") K.zero <;> simp [h]
  · intro q hp ha hk
    have hb := hk "blast radius" (by decide)
    simp only [Projectile.InBlastRadius, hp, ha, hb]
  · intro other hp hm
    simp only [Projectile.InBlastRadius, hp, hm]

/-- C9, witness: `burst` and `burstWide` differ in trigger radius only; their
`CheckCollision` results differ, their `InBlastRadius` answers agree. -/
theorem C9_in_blast_radius_witness :
    burstWide.CheckCollision prey 0 ≠ burst.CheckCollision prey 0 ∧
      burstWide.InBlastRadius prey 0 = burst.InBlastRadius prey 0 ∧
      burst.InBlastRadius prey 0 = true :=
  ⟨by decide,
    (C9_in_blast_radius burst prey 0).2.1 burstWide rfl rfl (by
      intro key hk
      simp [burstWide, burst, fuse, fuseWide, Outfit.WeaponGet, hk]),
    (C9_in_blast_radius burst prey 0).1.mpr ⟨by decide, by decide⟩⟩

/-! ## The target handle (C10) -/

/-- C10: the target is never re-acquired.  If the target of a projectile does not
resolve in world `w`, then in `w` and in every world `v` in which the handles
unresolvable in `w` are still unresolvable, it does not resolve after any run
of `Move` calls, after `Explode`, after `Kill`, after `Hit` has damaged a ship
of the world, nor for any child appended by `MakeSubmunitions`.  And every
`Move` call that reports alive on a projectile whose held target is in another
system than the projectile's home system empties the handle and steers as if
no target were held: the result is that of the same call on the projectile
without target, and a homing weapon keeps its facing. -/
theorem C10_target_never_reacquired :
    (∀ (w v : World K) (p : Projectile K), p.Target w = none →
      (∀ id, w id = none → v id = none) →
      (∀ (ws : List (World K)) (effects : List K.Effect),
        (MoveAll ws p effects).1.Target v = none) ∧
      (∀ (effects : List K.Effect) (intersection : K.Dbl),
        (p.Explode effects intersection).1.Target v = none) ∧
      p.Kill.Target v = none ∧
      (∀ (TakeDamage : Ship K → K.Dbl → K.Dbl → K.Point → Ship K) (id : Nat) (ship : Ship K),
        w id = some ship →
        p.Target (Function.update w id (some (p.Hit TakeDamage ship))) = none) ∧
      (∀ (projectiles : List (Projectile K)) (rng : K.Rng),
        ∀ c ∈ (p.MakeSubmunitions projectiles rng).1.drop projectiles.length,
          c.Target v = none)) ∧
    (∀ (w : World K) (p : Projectile K) (effects : List K.Effect) (t : Ship K),
      (p.Move w effects).alive = true → p.Target w = some t → t.GetSystem ≠ p.system →
      (p.Move w effects).projectile.targetShip = none ∧
      (∀ v : World K, (p.Move w effects).projectile.Target v = none) ∧
      (p.Move w effects).projectile =
        (({ p with targetShip := none } : Projectile K).Move w effects).projectile ∧
      (K.toInt (p.weapon.WeaponGet "homing") ≠ 0 →
        (p.Move w effects).projectile.angle = p.angle)) := by
  constructor
  · intro w v p hnone hv
    refine ⟨?_, ?_, ?_, ?_, ?_⟩
    · intro ws effects
      exact Target_stays_none w v p _ (MoveAll_targetShip ws p effects) hnone hv
    · intro effects intersection
      exact Target_stays_none w v p _ (Or.inl rfl) hnone hv
    · exact Target_stays_none w v p _ (Or.inl rfl) hnone hv
    · intro TakeDamage id ship hid
      apply Target_stays_none w _ p p (Or.inl rfl) hnone
      intro j hj
      have hne : j ≠ id := by
        intro h
        rw [h, hid] at hj
        exact Option.noConfusion hj
      rw [Function.update_noteq hne]
      exact hj
    · intro projectiles rng c hc
      have h4 := (MakeSubmunitions_children p projectiles rng).2.2 c hc
      exact Target_stays_none w v p c (Or.inl h4.2.1) hnone hv
  · intro w p effects t halive ht hs
    have hl : 1 < p.lifetime := by
      rw [Move_alive] at halive
      exact of_decide_eq_true halive
    have hq : ({ p with targetShip := none } : Projectile K).Target w = none := rfl
    have e1 := Move_of_alive w p effects hl
    have e2 := Move_of_alive w ({ p with targetShip := none } : Projectile K) effects hl
    rw [guide_target_left w p t ht hs] at e1
    rw [guide_without_target w _ hq] at e2
    rw [e1, e2]
    refine ⟨rfl, fun v => rfl, rfl, ?_⟩
    intro hh
    simp [Projectile.advance, hh, K.nonzero_zero]

/-- C10, witness: a missile whose target is gone, moved twice and then present when
`prey` is hit; and a missile whose target has moved to system 2. -/
theorem C10_target_never_reacquired_witness :
    (MoveAll [emptySpace, emptySpace] missile []).1.Target emptySpace = none ∧
      lostMissile.Target
        (Function.update chase 7 (some (lostMissile.Hit latticeDamage prey))) = none ∧
      (missile.Move elsewhere []).projectile.targetShip = none ∧
      (missile.Move elsewhere []).projectile.angle = missile.angle :=
  ⟨((C10_target_never_reacquired (K := Lattice)).1 emptySpace emptySpace missile rfl
      (fun _ h => h)).1 [emptySpace, emptySpace] [],
    ((C10_target_never_reacquired (K := Lattice)).1 chase chase lostMissile rfl
      (fun _ h => h)).2.2.2.1 latticeDamage 7 prey rfl,
    ((C10_target_never_reacquired (K := Lattice)).2 elsewhere missile [] strayPrey
      (by decide) rfl (by decide)).1,
    ((C10_target_never_reacquired (K := Lattice)).2 elsewhere missile [] strayPrey
      (by decide) rfl (by decide)).2.2.2 (by decide)⟩

/-! ## Acceleration cutoff (C11) -/

/-- The guidance law in terms of its named quantities. -/
theorem home_eq (p : Projectile K) (t : Ship K) (homing : Int) (turn accel : K.Dbl) :
    p.home t homing turn accel =
      if K.gt (K.Dot (K.psub p.position t.Position) (K.Unit p.angle)) K.zero = true ∧
          homing = 1 then
        (turn, accel, none)
      else
        (p.clampedTurn t homing turn accel,
          if 3 ≤ homing then
            (if p.stopsAccelerating t homing turn accel then K.zero else accel)
          else accel,
          p.targetShip) := by
  unfold Projectile.home Projectile.stopsAccelerating Projectile.clampedTurn
    Projectile.desiredTurn Projectile.stepsToReach Projectile.offset Projectile.trueVelocity
  by_cases h4 : homing = 4
  · subst h4; simp
  · simp only [h4, if_false]

/-- Guidance with an in-system target and a non-zero homing level runs the
guidance law. -/
theorem guide_in_system (w : World K) (p : Projectile K) (t : Ship K)
    (h : p.Target w = some t) (hs : t.GetSystem = p.system)
    (hh : K.toInt (p.weapon.WeaponGet "homing") ≠ 0) :
    p.guide w =
      p.home t (K.toInt (p.weapon.WeaponGet "homing")) (p.weapon.WeaponGet "turn")
        (p.weapon.WeaponGet "acceleration") := by
  have hl : p.targetLeft w = false := by simp [Projectile.targetLeft, h, hs]
  unfold Projectile.guide
  simp only [hl, h]
  simp [hh]

/-- At homing level 3 and above the acceleration is zeroed exactly when the
cutoff test of lines 113-116 holds. -/
theorem guide_accel_high (w : World K) (p : Projectile K) (t : Ship K)
    (h : p.Target w = some t) (hs : t.GetSystem = p.system)
    (hh : 3 ≤ K.toInt (p.weapon.WeaponGet "homing")) :
    (p.guide w).2.1 =
      if p.stopsAccelerating t (K.toInt (p.weapon.WeaponGet "homing"))
          (p.weapon.WeaponGet "turn") (p.weapon.WeaponGet "acceleration") then K.zero
      else p.weapon.WeaponGet "acceleration" := by
  have h0 : K.toInt (p.weapon.WeaponGet "homing") ≠ 0 := by omega
  have h1 : K.toInt (p.weapon.WeaponGet "homing") ≠ 1 := by omega
  rw [guide_in_system w p t h hs h0, home_eq]
  simp [h1, hh]

/-- Below homing level 3 the acceleration is the configured one. -/
theorem guide_accel_low (w : World K) (p : Projectile K)
    (hh : K.toInt (p.weapon.WeaponGet "homing") < 3) :
    (p.guide w).2.1 = p.weapon.WeaponGet "acceleration" := by
  have h3 : ¬ (3 ≤ K.toInt (p.weapon.WeaponGet "homing")) := by omega
  unfold Projectile.guide
  simp only
  split
  · split
    · rw [home_eq]
      split
      · rfl
      · simp [h3]
    · rfl
  · split <;> rfl

/-- The homing level of `rocket`. -/
theorem rocket_homing : Rational.toInt (rocket.weapon.WeaponGet "homing") = 3 := by
  simp [rocket, interceptor, Outfit.WeaponGet]

/-- The target is a quarter turn to the left of `rocket`. -/
theorem rocket_desiredTurn : rocket.desiredTurn quarry 3 1 = -90 := by
  simp [Projectile.desiredTurn, Projectile.offset, rocket, quarry, rationalLength, rationalUnit,
    rationalAsin]
  norm_num

/-- The target is 40 units away and `rocket` flies at speed 4. -/
theorem rocket_stepsToReach : rocket.stepsToReach quarry 3 1 = 10 := by
  simp [Projectile.stepsToReach, Projectile.offset, Projectile.trueVelocity, rocket, quarry,
    interceptor, Outfit.WeaponGet, rationalLength]
  norm_num

/-- The test in the words of the specification: `(-90 / 3) * 1.5 > 10` fails. -/
theorem rocket_spec : specCutoff rocket quarry 3 3 1 = false := by
  simp [specCutoff, rocket_desiredTurn, rocket_stepsToReach]
  norm_num

/-- The test of the code: `(-90 / -3) * 1.5 > 10` holds. -/
theorem rocket_code : rocket.stopsAccelerating quarry 3 3 1 = true := by
  simp [Projectile.stopsAccelerating, Projectile.clampedTurn, rocket_desiredTurn,
    rocket_stepsToReach]
  norm_num

/-- The turn rate of `rocket`. -/
theorem rocket_turn : rocket.weapon.WeaponGet "turn" = 3 := by
  simp [rocket, interceptor, Outfit.WeaponGet]

/-- The configured acceleration of `rocket`. -/
theorem rocket_acceleration : rocket.weapon.WeaponGet "acceleration" = 1 := by
  simp [rocket, interceptor, Outfit.WeaponGet]

/-- Guidance zeroes the acceleration of `rocket`. -/
theorem rocket_guide_accel : (rocket.guide hunt).2.1 = 0 := by
  rw [guide_accel_high hunt rocket quarry rfl rfl (by rw [rocket_homing]), rocket_homing,
    rocket_turn, rocket_acceleration, rocket_code]
  rfl

/-- C11, as amended: on a `Move` call that reports alive, with an in-system target
and homing level 3 or more, the tick runs with the clamped turn and with the
acceleration zeroed exactly when `stepsToFace * 1.5 > stepsToReach`, where
`stepsToFace = desiredTurn / turn`: `desiredTurn` is the unclamped signed
heading error in degrees and `turn` is the turn applied on this tick
(`desiredTurn` itself when its magnitude does not exceed the weapon's turn
rate, else the turn rate carrying the sign of `desiredTurn`), and
`stepsToReach` is the distance to the (level 4: lead-adjusted) target divided
by the effective speed.  Below level 3 the tick always runs with the weapon's
configured acceleration. -/
theorem C11_acceleration_cutoff :
    (∀ (w : World K) (p : Projectile K) (effects : List K.Effect) (t : Ship K),
      (p.Move w effects).alive = true → p.Target w = some t → t.GetSystem = p.system →
      3 ≤ K.toInt (p.weapon.WeaponGet "homing") →
      (p.Move w effects).projectile =
          p.advance (p.lifetime - 1) p.targetShip
            (p.clampedTurn t (K.toInt (p.weapon.WeaponGet "homing"))
              (p.weapon.WeaponGet "turn") (p.weapon.WeaponGet "acceleration"))
            (if K.gt
                (K.mul
                  (K.div
                    (p.desiredTurn t (K.toInt (p.weapon.WeaponGet "homing"))
                      (p.weapon.WeaponGet "acceleration"))
                    (p.clampedTurn t (K.toInt (p.weapon.WeaponGet "homing"))
                      (p.weapon.WeaponGet "turn") (p.weapon.WeaponGet "acceleration")))
                  K.onePointFive)
                (p.stepsToReach t (K.toInt (p.weapon.WeaponGet "homing"))
                  (p.weapon.WeaponGet "acceleration")) then K.zero
              else p.weapon.WeaponGet "acceleration")) ∧
    (∀ (w : World K) (p : Projectile K) (effects : List K.Effect),
      (p.Move w effects).alive = true → K.toInt (p.weapon.WeaponGet "homing") < 3 →
      (p.guide w).2.1 = p.weapon.WeaponGet "acceleration" ∧
      (p.Move w effects).projectile =
        p.advance (p.lifetime - 1) (p.guide w).2.2 (p.guide w).1
          (p.weapon.WeaponGet "acceleration")) := by
  constructor
  · intro w p effects t halive ht hs hh
    have hl : 1 < p.lifetime := by
      rw [Move_alive] at halive
      exact of_decide_eq_true halive
    have h0 : K.toInt (p.weapon.WeaponGet "homing") ≠ 0 := by omega
    have h1 : K.toInt (p.weapon.WeaponGet "homing") ≠ 1 := by omega
    rw [Move_of_alive w p effects hl, guide_in_system w p t ht hs h0, home_eq]
    simp [h1, hh, Projectile.stopsAccelerating]
  · intro w p effects halive hh
    have hl : 1 < p.lifetime := by
      rw [Move_alive] at halive
      exact of_decide_eq_true halive
    rw [Move_of_alive w p effects hl, guide_accel_low w p hh]
    exact ⟨rfl, rfl⟩

/-- C11, witness: the level 3 `rocket` with its target to the left, and the level 1
`missile`. -/
theorem C11_acceleration_cutoff_witness :
    (rocket.Move hunt []).projectile =
        rocket.advance (rocket.lifetime - 1) rocket.targetShip
          (rocket.clampedTurn quarry (Rational.toInt (rocket.weapon.WeaponGet "homing"))
            (rocket.weapon.WeaponGet "turn") (rocket.weapon.WeaponGet "acceleration"))
          (if Rational.gt
              (Rational.mul
                (Rational.div
                  (rocket.desiredTurn quarry (Rational.toInt (rocket.weapon.WeaponGet "homing"))
                    (rocket.weapon.WeaponGet "acceleration"))
                  (rocket.clampedTurn quarry
                    (Rational.toInt (rocket.weapon.WeaponGet "homing"))
                    (rocket.weapon.WeaponGet "turn") (rocket.weapon.WeaponGet "acceleration")))
                Rational.onePointFive)
              (rocket.stepsToReach quarry (Rational.toInt (rocket.weapon.WeaponGet "homing"))
                (rocket.weapon.WeaponGet "acceleration")) then Rational.zero
            else rocket.weapon.WeaponGet "acceleration") ∧
      (missile.guide chase).2.1 = missile.weapon.WeaponGet "acceleration" :=
  ⟨(C11_acceleration_cutoff (K := Rational)).1 hunt rocket [] quarry (by decide) rfl rfl
      (by simp [rocket, interceptor, Outfit.WeaponGet]),
    ((C11_acceleration_cutoff (K := Lattice)).2 chase missile [] (by decide) (by decide)).1⟩

/-- C11, counterexample: a level 3 rocket with turn rate 3 whose target is a quarter
turn to its left, 10 steps away.  With `stepsToFace = desiredTurn / turnRate =
-30` the stated test `-45 > 10` fails, yet the code divides by the clamped turn
-3, tests `45 > 10`, zeroes the acceleration and leaves the velocity as it was. -/
theorem C11_counterexample :
    Rational.toInt (rocket.weapon.WeaponGet "homing") = 3 ∧
      rocket.weapon.WeaponGet "turn" = 3 ∧
      rocket.weapon.WeaponGet "acceleration" = 1 ∧
      (rocket.Move hunt []).alive = true ∧
      rocket.Target hunt = some quarry ∧ quarry.GetSystem = rocket.system ∧
      rocket.desiredTurn quarry 3 1 = -90 ∧
      rocket.stepsToReach quarry 3 1 = 10 ∧
      specCutoff rocket quarry 3 3 1 = false ∧
      rocket.stopsAccelerating quarry 3 3 1 = true ∧
      (rocket.guide hunt).2.1 = 0 ∧
      (rocket.guide hunt).2.1 ≠ rocket.weapon.WeaponGet "acceleration" ∧
      (rocket.Move hunt []).projectile.velocity = rocket.velocity := by
  refine ⟨rocket_homing, rocket_turn, rocket_acceleration, by decide, rfl, rfl,
    rocket_desiredTurn, rocket_stepsToReach, rocket_spec, rocket_code, rocket_guide_accel,
    by rw [rocket_guide_accel, rocket_acceleration]; decide, ?_⟩
  rw [Move_of_alive hunt rocket [] (by decide)]
  simp [Projectile.advance, rocket_guide_accel]

end EndlessSky
